import Mathlib

set_option maxRecDepth 40000

/-!
Verification of the calculation core of the `amms-program` constant-product
AMM (Rust/Anchor).  The development shallowly embeds, over `Nat`:

* the hand-written `U256::sqrt` bisection (`utils/math/u256.rs`);
* the `Q64_128` fixed-point type (`utils/math/q64_128.rs`), values being
  represented by their raw 192-bit magnitude (64 integer bits, 128
  fractional bits);
* the `Q64_64` fixed-point type of the older revision
  (`utils/math/q64_64.rs`), raw 128-bit magnitude;
* the pool calculation functions of the newer engine
  (`state/cp_amm/cp_amm.rs`, `state/cp_amm/cp_amm_calculate.rs`) and the
  withdraw path of the older revision (`state/cp_amm.rs`).

Machine integers are `Nat` with explicit `% 2 ^ w` or range side conditions
at each point where the Rust performs a truncating cast; checked arithmetic
returns `Option`; `unwrap`/assert panics are modelled by a dedicated
`Failure.panicked` outcome.  The exact `integer_sqrt` of the `uint` crate
(floor square root) is embedded as the fueled, kernel-computable `isqrt`
below, proved to satisfy the floor-square-root specification.
-/

/-- Fueled auxiliary for the floor integer square root: recurses on `n / 4`.
`4 ^ fuel > n` suffices for exactness. -/
def isqrtAux : Nat → Nat → Nat
  | 0, _ => 0
  | fuel + 1, n =>
    if n < 2 then n
    else
      if (2 * isqrtAux fuel (n / 4) + 1) * (2 * isqrtAux fuel (n / 4) + 1) ≤ n
      then 2 * isqrtAux fuel (n / 4) + 1
      else 2 * isqrtAux fuel (n / 4)

/-- Floor integer square root, embedding the exact `integer_sqrt` of the
`uint` crate.  Fuel 400 is exact for all inputs below `4 ^ 400 = 2 ^ 800`,
far beyond the 384-bit values occurring in the program. -/
def isqrt (n : Nat) : Nat := isqrtAux 400 n

/-! ### Error model

`ErrorCode` mirrors `error.rs` (the union of both revisions' variants used
by the embedded functions); `Failure` additionally distinguishes a Rust
`unwrap`/assert panic from a returned typed error. -/

inductive ErrorCode where
  | QuoteLiquidityIsZero
  | BaseLiquidityIsZero
  | LpTokensSupplyIsZero
  | CpAmmNotLaunched
  | CpAmmNotInitialized
  | CpAmmAlreadyInitialized
  | CpAmmAlreadyLaunched
  | ProvidedQuoteLiquidityIsZero
  | ProvidedBaseLiquidityIsZero
  | ProvidedLpTokensIsZero
  | SwapAmountIsZero
  | EstimatedResultIsZero
  | ConfigFeeRateExceeded
  | LaunchLiquidityTooSmall
  | LpTokensToMintIsZero
  | LpTokensLeftSupplyIsZero
  | BaseWithdrawAmountIsZero
  | QuoteWithdrawAmountIsZero
  | PostfeeSwapAmountIsZero
  | SwapResultIsZero
  | SwapSlippageExceeded
  | NewQuoteLiquidityIsZero
  | NewBaseLiquidityIsZero
  | ConstantProductToleranceExceeded
  | LiquidityRatioToleranceExceeded
  | LpTokensCalculationFailed
  | AfterswapCalculationFailed
  | WithdrawLiquidityCalculationFailed
  | ProvideOverflowError
  | WithdrawOverflowError
  | SwapOverflowError
  | ProvidersFeesIsZero
  | BaseQuoteRatioCalculationFailed
  | ConstantProductCalculationFailed
  deriving DecidableEq, Repr

/-- Outcome of a fallible Rust computation: a typed error or a panic
(`unwrap` on `None`, `uint` overflow assertion, explicit `panic!`). -/
inductive Failure where
  | code : ErrorCode → Failure
  | panicked
  deriving DecidableEq, Repr

/-- Decidable equality of computation outcomes, for concrete evaluation. -/
instance {e a : Type} [DecidableEq e] [DecidableEq a] : DecidableEq (Except e a) :=
  fun x y =>
    match x, y with
    | .ok u, .ok v => if h : u = v then isTrue (by rw [h]) else isFalse (by
        intro hc; cases hc; exact h rfl)
    | .error u, .error v => if h : u = v then isTrue (by rw [h]) else isFalse (by
        intro hc; cases hc; exact h rfl)
    | .ok _, .error _ => isFalse (by intro hc; cases hc)
    | .error _, .ok _ => isFalse (by intro hc; cases hc)

/-! ### `Q64_128` (`utils/math/q64_128.rs`)

A `Q64_128` value is represented by its raw 192-bit magnitude (`U192` in
the source): `raw / 2 ^ 128` is the represented number.  All operations
below are translated from `q64_128.rs`; widening to `U384` in the source
corresponds to plain `Nat` arithmetic here, with the in-range assertions
of the truncating conversions (`checked_as_q64_128`, `From<U384>`) made
explicit. -/

namespace Q64_128

/-- Embeds `Q64_128::MAX` raw magnitude (`U192::MAX`). -/
def MAXRAW : Nat := 2 ^ 192 - 1

/-- Embeds `Q64_128::ONE` raw magnitude. -/
def ONE : Nat := 2 ^ 128

/-- Embeds `Q64_128::from_u64`. -/
def from_u64 (v : Nat) : Nat := v * 2 ^ 128

/-- Embeds `Q64_128::from_bits high_bits low_bits` (`high · 2 ^ 128 + low`, the
low bits being a `u128`). -/
def from_bits (high low : Nat) : Nat := high * 2 ^ 128 + low

/-- Embeds `Q64_128::as_u64`: the integer part (`value >> 128`, in range for any
raw value below `2 ^ 192`). -/
def as_u64 (x : Nat) : Nat := x / 2 ^ 128

/-- Embeds `Q64_128::is_zero`. -/
def is_zero (x : Nat) : Bool := x = 0

/-- Embeds `Q64_128::abs_diff` (via `U192::abs_diff`). -/
def abs_diff (x y : Nat) : Nat := if y ≤ x then x - y else y - x

/-- Embeds `Q64_128::checked_add` (`None` on 192-bit overflow). -/
def checked_add (x y : Nat) : Option Nat :=
  if x + y < 2 ^ 192 then some (x + y) else none

/-- Embeds `Q64_128::checked_sub` (`None` on underflow). -/
def checked_sub (x y : Nat) : Option Nat :=
  if y ≤ x then some (x - y) else none

/-- Embeds `Q64_128::checked_mul`: widened product shifted down by 128 bits,
`None` when the result exceeds 192 bits. -/
def checked_mul (x y : Nat) : Option Nat :=
  if x * y / 2 ^ 128 < 2 ^ 192 then some (x * y / 2 ^ 128) else none

/-- Embeds `Q64_128::checked_div`: `None` for a zero divisor or a quotient
exceeding 192 bits. -/
def checked_div (x y : Nat) : Option Nat :=
  if y = 0 then none
  else if x * 2 ^ 128 / y < 2 ^ 192 then some (x * 2 ^ 128 / y) else none

/-- Embeds `Q64_128::saturating_mul`. -/
def saturating_mul (x y : Nat) : Nat := (checked_mul x y).getD MAXRAW

/-- Embeds `Q64_128::saturating_checked_div`: `None` only for a zero divisor,
saturating at `MAX` on overflow. -/
def saturating_checked_div (x y : Nat) : Option Nat :=
  if y = 0 then none
  else some (if x * 2 ^ 128 / y < 2 ^ 192 then x * 2 ^ 128 / y else MAXRAW)

/-- The `Mul` operator (`impl Mul for Q64_128`).  In the source the final
`U384 → Q64_128` conversion asserts the value fits 192 bits; at every call
site in the engine the right factor is a tolerance constant below `2 ^ 102`
so the product is far below `2 ^ 192` and the assertion cannot fire, hence
a total model. -/
def mul (x y : Nat) : Nat := x * y / 2 ^ 128

/-- Embeds `Q64_128::square_as_u384` with its special cases for zero and one. -/
def square_as_u384 (x : Nat) : Nat :=
  if x = 0 then 0 else if x = ONE then 1 else x * x

/-- Embeds `U384::q128_256_to_u128_round` (`uint_types.rs`): integer part of a
`Q128.256` value with round-half-ish-up on the top fractional byte. -/
def q128_256_to_u128_round (v : Nat) : Nat :=
  if v / 2 ^ 256 = 2 ^ 128 - 1 ∨ v / 2 ^ 256 = 0 then v / 2 ^ 256
  else if v % 2 ^ 256 / 2 ^ 248 > 128 then v / 2 ^ 256 + 1
  else v / 2 ^ 256

/-- Embeds `Q64_128::square_as_u128`. -/
def square_as_u128 (x : Nat) : Nat :=
  if square_as_u384 x = 1 ∨ x = 0 then square_as_u384 x
  else q128_256_to_u128_round (square_as_u384 x)

/-- Embeds `U384::checked_q128_256_to_u64_round` (`uint_types.rs`). -/
def checked_q128_256_to_u64_round (v : Nat) : Option Nat :=
  if v / 2 ^ 256 < 2 ^ 64 then
    some (if v / 2 ^ 256 = 2 ^ 64 - 1 ∨ v / 2 ^ 256 = 0 then 2 ^ 64 - 1
      else if v % 2 ^ 256 / 2 ^ 248 > 128 then v / 2 ^ 256 + 1
      else v / 2 ^ 256)
  else none

/-- Embeds `Q64_128::checked_square_as_u64`. -/
def checked_square_as_u64 (x : Nat) : Option Nat :=
  if square_as_u384 x = 1 ∨ x = 0 then some (square_as_u384 x)
  else checked_q128_256_to_u64_round (square_as_u384 x)

/-- Embeds `U384::q128_256_to_q64_128_round` (`uint_types.rs`): `None` above 320
bits, otherwise a rounded `Q64_128` raw value. -/
def q128_256_to_q64_128_round (v : Nat) : Option Nat :=
  if v < 2 ^ 320 then
    some (if v / 2 ^ 128 = MAXRAW ∨ v / 2 ^ 128 = 0 then v / 2 ^ 128
      else if v % 2 ^ 128 / 2 ^ 120 > 128 then v / 2 ^ 128 + 1
      else v / 2 ^ 128)
  else none

/-- Embeds `Q64_128::square`: fixed-point square with the zero/one special cases. -/
def square (x : Nat) : Option Nat :=
  if x = 0 ∨ x = ONE then some x
  else q128_256_to_q64_128_round (square_as_u384 x)

/-- Embeds `Q64_128::sqrt_from_u128`: scale a `u128` by `2 ^ 256` and take the
exact integer square root (`U384::integer_sqrt`). -/
def sqrt_from_u128 (v : Nat) : Nat := isqrt (v * 2 ^ 256)

/-- Embeds `Q64_128::sqrt`: fixed-point square root of a `Q64_128` value. -/
def sqrt (x : Nat) : Nat := isqrt (x * 2 ^ 128)

/-- Embeds `Q64_128::checked_div_sqrt`. -/
def checked_div_sqrt (a b : Nat) : Option Nat :=
  if b = 0 then none
  else if a = b then some ONE
  else (checked_div a b).map fun d => isqrt (d * 2 ^ 128)

end Q64_128

/-! ### Payloads and pool state (newer engine, `state/cp_amm/cp_amm.rs`) -/

/-- Embeds `LaunchPayload`. -/
structure LaunchPayload where
  initial_locked_liquidity : Nat
  constant_product_sqrt : Nat
  base_quote_ratio_sqrt : Nat
  base_liquidity : Nat
  quote_liquidity : Nat
  lp_tokens_supply : Nat
  deriving DecidableEq, Repr

/-- Embeds `ProvidePayload`. -/
structure ProvidePayload where
  base_quote_ratio_sqrt : Nat
  constant_product : Nat
  base_liquidity : Nat
  quote_liquidity : Nat
  lp_tokens_supply : Nat
  lp_tokens_to_mint : Nat
  deriving DecidableEq, Repr

/-- Embeds `WithdrawPayload`. -/
structure WithdrawPayload where
  base_quote_ratio_sqrt : Nat
  base_liquidity : Nat
  quote_liquidity : Nat
  lp_tokens_supply : Nat
  base_withdraw_amount : Nat
  quote_withdraw_amount : Nat
  deriving DecidableEq, Repr

/-- Embeds `SwapPayload`. -/
structure SwapPayload where
  base_liquidity : Nat
  quote_liquidity : Nat
  protocol_fees_to_redeem : Nat
  providers_fees_to_redeem : Nat
  amount_to_withdraw : Nat
  is_in_out : Bool
  deriving DecidableEq, Repr

/-- Embeds `CollectFeesPayload`. -/
structure CollectFeesPayload where
  protocol_base_fees_to_redeem : Nat
  protocol_quote_fees_to_redeem : Nat
  new_protocol_base_fees_to_redeem : Nat
  new_protocol_quote_fees_to_redeem : Nat
  deriving DecidableEq, Repr

/-- The calculation-relevant fields of the `CpAmm` account (newer engine).
Mint/vault identities are opaque to the calculation core and omitted.
All integer fields are `u64` amounts; the two cached square roots are
`Q64_128` raw magnitudes. -/
structure CpAmm where
  is_initialized : Bool
  is_launched : Bool
  initial_locked_liquidity : Nat
  constant_product_sqrt : Nat
  base_quote_ratio_sqrt : Nat
  base_liquidity : Nat
  quote_liquidity : Nat
  lp_tokens_supply : Nat
  protocol_base_fees_to_redeem : Nat
  protocol_quote_fees_to_redeem : Nat
  deriving DecidableEq, Repr

/-- Embeds `u64::abs_diff`. -/
def abs_diff64 (x y : Nat) : Nat := if y ≤ x then x - y else y - x

namespace CpAmm

/-- Embeds `CpAmmCalculate::INITIAL_LOCKED_LP_TOKENS = 10 ^ LP_MINT_INITIAL_DECIMALS`
with `LP_MINT_INITIAL_DECIMALS = 5`. -/
def INITIAL_LOCKED_LP_TOKENS : Nat := 10 ^ 5

/-- Embeds `CpAmmCalculate::FEE_MAX_BASIS_POINTS`. -/
def FEE_MAX_BASIS_POINTS : Nat := 10000

/-- Embeds `CpAmmCalculate::SWAP_CONSTANT_PRODUCT_TOLERANCE`
(`Q64_128::from_bits(0, 3402823669209384634633746074317)`). -/
def SWAP_CONSTANT_PRODUCT_TOLERANCE : Nat :=
  Q64_128.from_bits 0 3402823669209384634633746074317

/-- Embeds `CpAmmCalculate::ADJUST_LIQUIDITY_RATIO_TOLERANCE`
(`Q64_128::from_bits(0, 3402823669209384634633746074317)`). -/
def ADJUST_LIQUIDITY_RATIO_TOLERANCE : Nat :=
  Q64_128.from_bits 0 3402823669209384634633746074317

/-- Embeds `CpAmm::check_state` (newer engine): note the error codes attached to
the two reserve checks. -/
def check_state (s : CpAmm) : Except Failure Unit :=
  if ¬ s.is_launched then .error (.code .CpAmmNotLaunched)
  else if s.quote_liquidity = 0 then .error (.code .BaseLiquidityIsZero)
  else if s.base_liquidity = 0 then .error (.code .QuoteLiquidityIsZero)
  else if s.lp_tokens_supply = 0 then .error (.code .LpTokensSupplyIsZero)
  else .ok ()

/-- Modelled from the spec: `CpAmm::calculate_fee_amount(amount, rate_bp)`,
called by `get_swap_payload` but not present under `src/`; the spec defines
it as `floor(amount × rateBp / 10000)`, matching the in-repo analogues
`calculate_protocol_fee_amount` / `calculate_providers_fee_amount`
(`cp_amm_calculate.rs`), whose truncating `as u64` cast cannot fire for any
rate at most 10000. -/
def calculate_fee_amount (amount rate : Nat) : Nat :=
  amount * rate / FEE_MAX_BASIS_POINTS

/-- Embeds `CpAmmCalculate::calculate_protocol_fee_amount`, as a function of the
rate it reads from the pool, including the truncating `as u64` cast. -/
def protocol_fee_amount_formula (amount rate : Nat) : Nat :=
  amount * rate / FEE_MAX_BASIS_POINTS % 2 ^ 64

/-- Embeds `CpAmmCalculate::calculate_base_quote_ratio_sqrt`. -/
def calculate_base_quote_ratio_sqrt (b q : Nat) : Option Nat :=
  match Q64_128.checked_div_sqrt (Q64_128.from_u64 b) (Q64_128.from_u64 q) with
  | none => none
  | some r => if r = 0 then none else some r

/-- Embeds `CpAmmCalculate::calculate_constant_product_sqrt` (the `u64` reserves
are multiplied as `u128`, which cannot overflow). -/
def calculate_constant_product_sqrt (b q : Nat) : Option Nat :=
  if Q64_128.sqrt_from_u128 (b * q) = 0 then none
  else some (Q64_128.sqrt_from_u128 (b * q))

/-- Embeds `CpAmmCalculate::calculate_launch_lp_tokens`: the minimum-liquidity
gate is `lp_supply - locked ≥ locked << 3`. -/
def calculate_launch_lp_tokens (cp : Nat) : Except Failure (Nat × Nat) :=
  if Q64_128.as_u64 cp = 0 then .error (.code .LpTokensCalculationFailed)
  else if Q64_128.as_u64 cp < INITIAL_LOCKED_LP_TOKENS then
    .error (.code .LaunchLiquidityTooSmall)
  else if Q64_128.as_u64 cp - INITIAL_LOCKED_LP_TOKENS <
      INITIAL_LOCKED_LP_TOKENS <<< 3 then
    .error (.code .LaunchLiquidityTooSmall)
  else .ok (Q64_128.as_u64 cp, INITIAL_LOCKED_LP_TOKENS)

/-- Embeds `CpAmmCalculate::calculate_lp_mint_for_provided_liquidity`. -/
def calculate_lp_mint_for_provided_liquidity (s : CpAmm) (ncp : Nat) :
    Option Nat :=
  match Q64_128.checked_sub ncp s.constant_product_sqrt with
  | none => none
  | some provided =>
    match Q64_128.checked_div provided s.constant_product_sqrt with
    | none => none
    | some share =>
      match Q64_128.checked_mul share (Q64_128.from_u64 s.lp_tokens_supply) with
      | none => none
      | some t =>
        if Q64_128.as_u64 t = 0 then none else some (Q64_128.as_u64 t)

/-- Embeds `CpAmmCalculate::calculate_liquidity_from_share`. -/
def calculate_liquidity_from_share (s : CpAmm) (lp : Nat) :
    Option (Nat × Nat) :=
  if lp = 0 then none
  else
    match Q64_128.checked_div (Q64_128.from_u64 lp)
        (Q64_128.from_u64 s.lp_tokens_supply) with
    | none => none
    | some share =>
      match Q64_128.checked_mul s.constant_product_sqrt share with
      | none => none
      | some cps =>
        match Q64_128.saturating_checked_div cps s.base_quote_ratio_sqrt with
        | none => none
        | some qd =>
          if Q64_128.as_u64 (Q64_128.saturating_mul cps s.base_quote_ratio_sqrt) = 0
              ∨ Q64_128.as_u64 qd = 0 then none
          else some (Q64_128.as_u64 (Q64_128.saturating_mul cps s.base_quote_ratio_sqrt),
            Q64_128.as_u64 qd)

/-- Embeds `CpAmmCalculate::calculate_opposite_liquidity`: the constant product as
a rounded `u128` divided by the given reserve, truncated to `u64` by the
`as u64` cast.  The `x = 0` guard models the `u128` division-by-zero panic;
every call site passes a reserve that `check_state` proved positive. -/
def calculate_opposite_liquidity (s : CpAmm) (x : Nat) : Option Nat :=
  if x = 0 then none
  else if Q64_128.square_as_u128 s.constant_product_sqrt / x % 2 ^ 64 = 0 then none
  else some (Q64_128.square_as_u128 s.constant_product_sqrt / x % 2 ^ 64)

/-- Embeds `CpAmmCalculate::calculate_afterswap_liquidity`. -/
def calculate_afterswap_liquidity (s : CpAmm) (amt : Nat) (in_out : Bool) :
    Option (Nat × Nat) :=
  if in_out then
    if s.base_liquidity + amt < 2 ^ 64 then
      match calculate_opposite_liquidity s (s.base_liquidity + amt) with
      | none => none
      | some nq => some (s.base_liquidity + amt, nq)
    else none
  else
    if s.quote_liquidity + amt < 2 ^ 64 then
      match calculate_opposite_liquidity s (s.quote_liquidity + amt) with
      | none => none
      | some nb => some (nb, s.quote_liquidity + amt)
    else none

/-- Embeds `CpAmmCalculate::validate_and_calculate_liquidity_ratio`. -/
def validate_and_calculate_liquidity_ratio (s : CpAmm) (nb nq : Nat) :
    Except Failure Nat :=
  match calculate_base_quote_ratio_sqrt nb nq with
  | none => .error (.code .BaseQuoteRatioCalculationFailed)
  | some nr =>
    if Q64_128.abs_diff s.base_quote_ratio_sqrt nr ≤
        Q64_128.mul s.base_quote_ratio_sqrt ADJUST_LIQUIDITY_RATIO_TOLERANCE
    then .ok nr
    else .error (.code .LiquidityRatioToleranceExceeded)

/-- Embeds `CpAmmCalculate::validate_swap_constant_product`. -/
def validate_swap_constant_product (s : CpAmm) (nb nq : Nat) :
    Except Failure Unit :=
  match calculate_constant_product_sqrt nb nq with
  | none => .error (.code .ConstantProductCalculationFailed)
  | some ncp =>
    if Q64_128.abs_diff s.constant_product_sqrt ncp ≤
        Q64_128.mul s.constant_product_sqrt SWAP_CONSTANT_PRODUCT_TOLERANCE
    then .ok ()
    else .error (.code .ConstantProductToleranceExceeded)

/-- Embeds `CpAmmCalculate::check_swap_result`. -/
def check_swap_result (res est slip : Nat) : Except Failure Unit :=
  if res = 0 then .error (.code .SwapResultIsZero)
  else if abs_diff64 res est ≤ slip then .ok ()
  else .error (.code .SwapSlippageExceeded)

end CpAmm

namespace CpAmm

/-- Embeds `CpAmm::get_launch_payload` (newer engine); the source `unwrap`s the
two square-root calculations. -/
def get_launch_payload (s : CpAmm) (b q : Nat) : Except Failure LaunchPayload :=
  if s.is_launched then .error (.code .CpAmmAlreadyLaunched)
  else if ¬ s.is_initialized then .error (.code .CpAmmNotInitialized)
  else if b = 0 then .error (.code .ProvidedBaseLiquidityIsZero)
  else if q = 0 then .error (.code .ProvidedQuoteLiquidityIsZero)
  else
    match calculate_constant_product_sqrt b q with
    | none => .error .panicked
    | some cp =>
      match calculate_launch_lp_tokens cp with
      | .error e => .error e
      | .ok (lp, locked) =>
        match calculate_base_quote_ratio_sqrt b q with
        | none => .error .panicked
        | some ratio => .ok ⟨locked, cp, ratio, b, q, lp⟩

/-- Embeds `CpAmm::get_provide_payload` (newer engine). -/
def get_provide_payload (s : CpAmm) (b q : Nat) : Except Failure ProvidePayload :=
  match check_state s with
  | .error e => .error e
  | .ok _ =>
    if b = 0 then .error (.code .ProvidedBaseLiquidityIsZero)
    else if q = 0 then .error (.code .ProvidedQuoteLiquidityIsZero)
    else if ¬ s.base_liquidity + b < 2 ^ 64 then .error (.code .ProvideOverflowError)
    else if ¬ s.quote_liquidity + q < 2 ^ 64 then .error (.code .ProvideOverflowError)
    else
      match validate_and_calculate_liquidity_ratio s (s.base_liquidity + b)
          (s.quote_liquidity + q) with
      | .error e => .error e
      | .ok nr =>
        match calculate_constant_product_sqrt (s.base_liquidity + b)
            (s.quote_liquidity + q) with
        | none => .error .panicked
        | some ncp =>
          match calculate_lp_mint_for_provided_liquidity s ncp with
          | none => .error (.code .LpTokensCalculationFailed)
          | some mint =>
            if s.lp_tokens_supply + mint < 2 ^ 64 then
              .ok ⟨nr, ncp, s.base_liquidity + b, s.quote_liquidity + q,
                s.lp_tokens_supply + mint, mint⟩
            else .error (.code .ProvideOverflowError)

/-- Embeds `CpAmm::get_withdraw_payload` (newer engine): no dedicated full-drain
check; draining is rejected only indirectly by the ratio validation. -/
def get_withdraw_payload (s : CpAmm) (lp : Nat) : Except Failure WithdrawPayload :=
  match check_state s with
  | .error e => .error e
  | .ok _ =>
    if lp = 0 then .error (.code .ProvidedLpTokensIsZero)
    else if ¬ lp ≤ s.lp_tokens_supply then .error (.code .WithdrawOverflowError)
    else
      match calculate_liquidity_from_share s lp with
      | none => .error (.code .WithdrawLiquidityCalculationFailed)
      | some (bw, qw) =>
        if ¬ bw ≤ s.base_liquidity then .error (.code .WithdrawOverflowError)
        else if ¬ qw ≤ s.quote_liquidity then .error (.code .WithdrawOverflowError)
        else
          match validate_and_calculate_liquidity_ratio s (s.base_liquidity - bw)
              (s.quote_liquidity - qw) with
          | .error e => .error e
          | .ok nr =>
            .ok ⟨nr, s.base_liquidity - bw, s.quote_liquidity - qw,
              s.lp_tokens_supply - lp, bw, qw⟩

/-- The per-direction core of `CpAmm::get_swap_payload`: fee accumulator
update, gross-minus-fees input, after-swap reserves and the amount owed to
the trader.  Returns `(new_base, new_quote, protocol_acc, withdraw)`. -/
def swap_core (s : CpAmm) (swap_amount providersFee protocolFee : Nat)
    (is_in_out : Bool) : Except Failure (Nat × Nat × Nat × Nat) :=
  if is_in_out then
    if ¬ s.protocol_base_fees_to_redeem + protocolFee < 2 ^ 64 then
      .error (.code .SwapOverflowError)
    else if ¬ providersFee ≤ swap_amount then .error .panicked
    else if ¬ protocolFee ≤ swap_amount - providersFee then
      .error (.code .SwapOverflowError)
    else
      match calculate_afterswap_liquidity s
          (swap_amount - providersFee - protocolFee) true with
      | none => .error (.code .AfterswapCalculationFailed)
      | some (nb, nq) =>
        if ¬ nq ≤ s.quote_liquidity then .error (.code .SwapOverflowError)
        else .ok (nb, nq, s.protocol_base_fees_to_redeem + protocolFee,
          s.quote_liquidity - nq)
  else
    if ¬ s.protocol_quote_fees_to_redeem + protocolFee < 2 ^ 64 then
      .error (.code .SwapOverflowError)
    else if ¬ providersFee ≤ swap_amount then .error .panicked
    else if ¬ protocolFee ≤ swap_amount - providersFee then
      .error (.code .SwapOverflowError)
    else
      match calculate_afterswap_liquidity s
          (swap_amount - providersFee - protocolFee) false with
      | none => .error (.code .AfterswapCalculationFailed)
      | some (nb, nq) =>
        if ¬ nb ≤ s.base_liquidity then .error (.code .SwapOverflowError)
        else .ok (nb, nq, s.protocol_quote_fees_to_redeem + protocolFee,
          s.base_liquidity - nb)

/-- Embeds `CpAmm::get_swap_payload` (newer engine): fee rates are passed in from
the config by the instruction handler. -/
def get_swap_payload (s : CpAmm) (swap_amount estimated_result allowed_slippage
    providers_bp protocol_bp : Nat) (is_in_out : Bool) :
    Except Failure SwapPayload :=
  match check_state s with
  | .error e => .error e
  | .ok _ =>
    if swap_amount = 0 then .error (.code .SwapAmountIsZero)
    else if estimated_result = 0 then .error (.code .EstimatedResultIsZero)
    else if ¬ providers_bp + protocol_bp ≤ 10000 then
      .error (.code .ConfigFeeRateExceeded)
    else
      match swap_core s swap_amount (calculate_fee_amount swap_amount providers_bp)
          (calculate_fee_amount swap_amount protocol_bp) is_in_out with
      | .error e => .error e
      | .ok (nb, nq, acc, atw) =>
        match validate_swap_constant_product s nb nq with
        | .error e => .error e
        | .ok _ =>
          match check_swap_result atw estimated_result allowed_slippage with
          | .error e => .error e
          | .ok _ =>
            .ok ⟨nb, nq, acc, calculate_fee_amount swap_amount providers_bp,
              atw, is_in_out⟩

/-- Embeds `CpAmm::get_collect_fees_payload` (newer engine): only the fee
accumulators are inspected; the lifecycle flags are not. -/
def get_collect_fees_payload (s : CpAmm) : Except Failure CollectFeesPayload :=
  if s.protocol_base_fees_to_redeem > 0 ∨ s.protocol_quote_fees_to_redeem > 0 then
    .ok ⟨s.protocol_base_fees_to_redeem, s.protocol_quote_fees_to_redeem, 0, 0⟩
  else .error (.code .ProvidersFeesIsZero)

end CpAmm

/-! ### `U256::sqrt` (`utils/math/u256.rs`)

Hand-written bisection square root of the source, embedded with explicit
fuel: each iteration at least halves `high - low`, so 600 iterations are
ample for 256-bit values; the fuel branch is unreachable. -/

/-- Fueled bit-length helper. -/
def bitlenAux : Nat → Nat → Nat
  | 0, _ => 0
  | fuel + 1, n => if n = 0 then 0 else bitlenAux fuel (n / 2) + 1

/-- Bit length of a `Nat` (`256 - leading_zeros` for a `U256`). -/
def bitlen (n : Nat) : Nat := bitlenAux 600 n

/-- The bisection loop of `U256::sqrt`, including the saturating square
and the post-loop exact-`high` check. -/
def u256_sqrt_loop (self : Nat) : Nat → Nat → Nat → Nat
  | 0, low, high =>
    if high - low ≤ 1 then
      if high < 2 ^ 128 ∧ high * high = self then high else low
    else low
  | fuel + 1, low, high =>
    if high - low ≤ 1 then
      if high < 2 ^ 128 ∧ high * high = self then high else low
    else
      if min ((low + high) / 2 * ((low + high) / 2)) (2 ^ 256 - 1) < self then
        u256_sqrt_loop self fuel ((low + high) / 2) high
      else if min ((low + high) / 2 * ((low + high) / 2)) (2 ^ 256 - 1) = self then
        (low + high) / 2
      else
        u256_sqrt_loop self fuel low ((low + high) / 2)

/-- Embeds `U256::sqrt`: special cases for `0`, `1` and `U256::MAX`, then bisection
from `low = 1`, `high = self >> shift` with
`shift = (256 - leading_zeros - 1) / 2 = (bitlen - 1) / 2` on this branch. -/
def u256_sqrt (self : Nat) : Nat :=
  if self = 0 then 0
  else if self = 1 then 1
  else if self = 2 ^ 256 - 1 then 2 ^ 128 - 1
  else u256_sqrt_loop self 600 1 (self / 2 ^ ((bitlen self - 1) / 2))

/-! ### `Q64_64` (`utils/math/q64_64.rs`, older revision)

Raw 128-bit magnitude; 64 fractional bits.  Only the operations used by the
embedded old-engine paths are translated.  The `Mul`/`Div` operators panic
on a zero divisor or when the `as_u128` in-range assertion fires; both are
modelled as `none` and mapped to `Failure.panicked` by the callers. -/

namespace Q64_64

/-- Embeds `Q64_64::from_u64`. -/
def from_u64 (v : Nat) : Nat := v * 2 ^ 64

/-- Embeds `Q64_64::to_u64` (integer part). -/
def to_u64 (x : Nat) : Nat := x / 2 ^ 64

/-- Embeds `Q64_64::abs_diff`. -/
def abs_diff (x y : Nat) : Nat := if y ≤ x then x - y else y - x

/-- The `Div` operator: widened `(x << 64) / y`, asserted to fit 128 bits. -/
def div (x y : Nat) : Option Nat :=
  if y = 0 then none
  else if x * 2 ^ 64 / y < 2 ^ 128 then some (x * 2 ^ 64 / y) else none

/-- The `Mul` operator: widened product shifted down 64 bits, asserted to
fit 128 bits. -/
def mul (x y : Nat) : Option Nat :=
  if x * y / 2 ^ 64 < 2 ^ 128 then some (x * y / 2 ^ 64) else none

/-- Embeds `Q64_64::sqrt_from_u128`: `U256::sqrt` of the value scaled by `2 ^ 128`
(the result always fits 128 bits). -/
def sqrt_from_u128 (v : Nat) : Nat := u256_sqrt (v * 2 ^ 128)

end Q64_64

/-- Modelled from the source constant
`Q64_64::from_f64(0.000001)` (`ADJUST_LIQUIDITY_RATIO_TOLERANCE` of the
older revision, `state/cp_amm.rs`): `round(0.000001 · 2 ^ 64)` under `f64`
arithmetic.  The final floating-point ulp is immaterial to the theorems
below, which never evaluate a tolerance comparison of the older engine. -/
def OLD_ADJUST_TOLERANCE : Nat := 18446744073710

/-- The calculation-relevant fields of the older revision's `CpAmm`
(`state/cp_amm.rs`): `Q64_64` caches and the fee-rate snapshot. -/
structure CpAmmOld where
  is_initialized : Bool
  is_launched : Bool
  initial_locked_liquidity : Nat
  constant_product_sqrt : Nat
  base_quote_ratio_sqrt : Nat
  base_liquidity : Nat
  quote_liquidity : Nat
  lp_tokens_supply : Nat
  providers_fee_rate_basis_points : Nat
  protocol_fee_rate_basis_points : Nat
  protocol_base_fees_to_redeem : Nat
  protocol_quote_fees_to_redeem : Nat
  deriving DecidableEq, Repr

namespace CpAmmOld

/-- Embeds `CpAmm::check_state` of the older revision: the error codes name the
matching reserve. -/
def check_state (s : CpAmmOld) : Except Failure Unit :=
  if ¬ s.is_launched then .error (.code .CpAmmNotLaunched)
  else if s.quote_liquidity = 0 then .error (.code .QuoteLiquidityIsZero)
  else if s.base_liquidity = 0 then .error (.code .BaseLiquidityIsZero)
  else if s.lp_tokens_supply = 0 then .error (.code .LpTokensSupplyIsZero)
  else .ok ()

/-- Embeds `CpAmm::calculate_and_validate_liquidity_ratio` (older revision). -/
def calculate_and_validate_liquidity_ratio (s : CpAmmOld) (nb nq : Nat) :
    Except Failure Nat :=
  if nb = 0 then .error (.code .NewBaseLiquidityIsZero)
  else if nq = 0 then .error (.code .NewQuoteLiquidityIsZero)
  else
    match Q64_64.div (Q64_64.from_u64 nb) (Q64_64.from_u64 nq) with
    | none => .error .panicked
    | some d =>
      match Q64_64.mul s.base_quote_ratio_sqrt OLD_ADJUST_TOLERANCE with
      | none => .error .panicked
      | some allowed =>
        if Q64_64.abs_diff s.base_quote_ratio_sqrt (Q64_64.sqrt_from_u128 d) ≤
            allowed then .ok (Q64_64.sqrt_from_u128 d)
        else .error (.code .LiquidityRatioToleranceExceeded)

/-- Embeds `CpAmm::get_withdraw_payload` of the older revision, with its explicit
`LpTokensLeftSupplyIsZero` anti-drain check before any share computation. -/
def get_withdraw_payload (s : CpAmmOld) (lp : Nat) :
    Except Failure WithdrawPayload :=
  match check_state s with
  | .error e => .error e
  | .ok _ =>
    if lp = 0 then .error (.code .ProvidedLpTokensIsZero)
    else if ¬ lp ≤ s.lp_tokens_supply then .error .panicked
    else if s.lp_tokens_supply - lp = 0 then .error (.code .LpTokensLeftSupplyIsZero)
    else
      match Q64_64.div (Q64_64.from_u64 lp) (Q64_64.from_u64 s.lp_tokens_supply) with
      | none => .error .panicked
      | some share =>
        match Q64_64.mul s.constant_product_sqrt share with
        | none => .error .panicked
        | some cps =>
          match Q64_64.mul cps s.base_quote_ratio_sqrt with
          | none => .error .panicked
          | some bwq =>
            match Q64_64.div cps s.base_quote_ratio_sqrt with
            | none => .error .panicked
            | some qwq =>
              if Q64_64.to_u64 bwq = 0 then .error (.code .BaseWithdrawAmountIsZero)
              else if Q64_64.to_u64 qwq = 0 then
                .error (.code .QuoteWithdrawAmountIsZero)
              else if ¬ Q64_64.to_u64 bwq ≤ s.base_liquidity then .error .panicked
              else if ¬ Q64_64.to_u64 qwq ≤ s.quote_liquidity then .error .panicked
              else
                match calculate_and_validate_liquidity_ratio s
                    (s.base_liquidity - Q64_64.to_u64 bwq)
                    (s.quote_liquidity - Q64_64.to_u64 qwq) with
                | .error e => .error e
                | .ok nr =>
                  .ok ⟨nr, s.base_liquidity - Q64_64.to_u64 bwq,
                    s.quote_liquidity - Q64_64.to_u64 qwq,
                    s.lp_tokens_supply - lp, Q64_64.to_u64 bwq, Q64_64.to_u64 qwq⟩

end CpAmmOld

/-! ## Theorems -/

/-! ### Integer square root facts -/

theorem isqrtAux_spec (fuel : Nat) : ∀ n : Nat, n < 4 ^ fuel →
    isqrtAux fuel n * isqrtAux fuel n ≤ n ∧
      n < (isqrtAux fuel n + 1) * (isqrtAux fuel n + 1) := by
  induction fuel with
  | zero => intro n hn; simp only [isqrtAux]; omega
  | succ fuel ih =>
    intro n hn
    by_cases h2 : n < 2
    · unfold isqrtAux
      simp only [h2, if_true]
      interval_cases n <;> simp
    · have hquarter : n / 4 < 4 ^ fuel := by
        have h4 : 4 ^ (fuel + 1) = 4 ^ fuel * 4 := by ring
        omega
      obtain ⟨hlo, hhi⟩ := ih (n / 4) hquarter
      set i := isqrtAux fuel (n / 4) with hi
      have hlo4 : 2 * i * (2 * i) ≤ n := by
        have e1 : 2 * i * (2 * i) = 4 * (i * i) := by ring
        omega
      have hhi4 : n < (2 * i + 2) * (2 * i + 2) := by
        have e1 : (2 * i + 2) * (2 * i + 2) = 4 * ((i + 1) * (i + 1)) := by ring
        omega
      unfold isqrtAux
      simp only [h2, if_false, ← hi]
      by_cases hcase : (2 * i + 1) * (2 * i + 1) ≤ n
      · rw [if_pos hcase]
        refine ⟨hcase, ?_⟩
        have e1 : (2 * i + 1 + 1) * (2 * i + 1 + 1) = (2 * i + 2) * (2 * i + 2) := by
          ring
        omega
      · rw [if_neg hcase]
        exact ⟨hlo4, by omega⟩

theorem isqrt_spec (n : Nat) (hn : n < 4 ^ 400) :
    isqrt n * isqrt n ≤ n ∧ n < (isqrt n + 1) * (isqrt n + 1) :=
  isqrtAux_spec 400 n hn

theorem isqrt_le (n : Nat) (hn : n < 4 ^ 400) : isqrt n * isqrt n ≤ n :=
  (isqrt_spec n hn).1

theorem lt_isqrt_succ (n : Nat) (hn : n < 4 ^ 400) :
    n < (isqrt n + 1) * (isqrt n + 1) :=
  (isqrt_spec n hn).2

/-- Embeds `isqrt` agrees with Mathlib's `Nat.sqrt` on its exactness range. -/
theorem isqrt_eq_sqrt (n : Nat) (hn : n < 4 ^ 400) : isqrt n = Nat.sqrt n := by
  obtain ⟨h1, h2⟩ := isqrt_spec n hn
  have hle : isqrt n ≤ Nat.sqrt n := Nat.le_sqrt.2 h1
  have hge : Nat.sqrt n ≤ isqrt n := by
    have := Nat.sqrt_lt.2 h2
    omega
  omega

/-- Exactness of `isqrt` on perfect squares. -/
theorem isqrt_mul_self (a : Nat) (ha : a * a < 4 ^ 400) : isqrt (a * a) = a := by
  obtain ⟨h1, h2⟩ := isqrt_spec (a * a) ha
  rcases Nat.lt_trichotomy (isqrt (a * a)) a with h | h | h
  · have : (isqrt (a * a) + 1) * (isqrt (a * a) + 1) ≤ a * a :=
      Nat.mul_le_mul (by omega) (by omega)
    omega
  · exact h
  · have : a * a < isqrt (a * a) * isqrt (a * a) :=
      Nat.mul_lt_mul_of_lt_of_le h (by omega) (by omega)
    omega

/-! ### C5 — magnitude of the tolerance constants -/

/-- Claim C5 (counterexample): the tolerance constant does NOT represent a
relative value of at least `0.00001`: its raw magnitude times `10 ^ 5` is
below `2 ^ 128`, so the represented value is strictly below `10 ^ (-5)`. -/
theorem swap_tolerance_below_claimed_range :
    CpAmm.SWAP_CONSTANT_PRODUCT_TOLERANCE * 10 ^ 5 < 2 ^ 128 := by decide

/-- Claim C5 (amended): both tolerance constants are equal and their raw
magnitude is exactly `⌊2 ^ 128 / 10 ^ 8⌋`, i.e. they represent a relative
value of about `10 ^ (-8)` — strictly between `10 ^ (-9)` and `10 ^ (-7)` —
not a value in the claimed `10 ^ (-5)` to `10 ^ (-4)` range. -/
theorem swap_tolerance_value :
    CpAmm.SWAP_CONSTANT_PRODUCT_TOLERANCE = CpAmm.ADJUST_LIQUIDITY_RATIO_TOLERANCE ∧
    CpAmm.SWAP_CONSTANT_PRODUCT_TOLERANCE = 2 ^ 128 / 10 ^ 8 ∧
    2 ^ 128 < CpAmm.SWAP_CONSTANT_PRODUCT_TOLERANCE * 10 ^ 9 ∧
    CpAmm.SWAP_CONSTANT_PRODUCT_TOLERANCE * 10 ^ 7 < 2 ^ 128 := by decide

/-! ### C9 — the `U256::sqrt` bisection is not the exact floor square root -/

/-- Claim C9: at input `5` (a product of two `u128` values, as generated by
the repo's own `test_u256_sqrt` property test) the bisection returns `1`,
while the floor square root of `5` is `2`.  The shortcut exit
`high - low ≤ 1` fires immediately with `high = 5 >> 1 = 2`, and the final
check only accepts `high` when `high² = self` exactly. -/
theorem u256_sqrt_wrong_at_5 :
    u256_sqrt 5 = 1 ∧ isqrt 5 = 2 ∧ 2 * 2 ≤ 5 ∧ 5 < 3 * 3 ∧
      u256_sqrt 17 = 3 ∧ isqrt 17 = 4 := by decide

/-! ### C2 — launch minimum-liquidity multiple -/

/-- Claim C2: at `constant_product_sqrt = Q64_128::from_u64 600000` the
supply is `600000`, so `lpSupply - initialLockedLiquidity = 500000` meets
the claimed (and error-message-documented) `4 ×` bound
`4 · 100000 = 400000`, yet `calculate_launch_lp_tokens` rejects the launch:
the newer engine's gate is `lpSupply - locked ≥ locked << 3` (8 ×). -/
theorem launch_gate_rejects_fourfold :
    CpAmm.calculate_launch_lp_tokens (Q64_128.from_u64 600000) =
      .error (.code .LaunchLiquidityTooSmall) ∧
    CpAmm.INITIAL_LOCKED_LP_TOKENS * 4 ≤ 600000 - CpAmm.INITIAL_LOCKED_LP_TOKENS ∧
    CpAmm.calculate_launch_lp_tokens (Q64_128.from_u64 900000) =
      .ok (900000, CpAmm.INITIAL_LOCKED_LP_TOKENS) := by decide

/-! ### C6 — the launch scenario of the spec -/

/-- Claim C6: launching an initialized, not-yet-launched pool with
`base = quote = 400000` is rejected with `LaunchLiquidityTooSmall`
(`lpSupply = 400000`, `400000 - 100000 = 300000 < 100000 << 3`), although
the claim — and the repo's own `test_get_launch_payload` unit test — expect
it to succeed with `lpSupply = 400000`; the `5500 / 1000` half of the
scenario errors as claimed. -/
theorem launch_scenario_rejected_by_code :
    CpAmm.get_launch_payload ⟨true, false, 0, 0, 0, 0, 0, 0, 0, 0⟩ 400000 400000 =
      .error (.code .LaunchLiquidityTooSmall) ∧
    CpAmm.get_launch_payload ⟨true, false, 0, 0, 0, 0, 0, 0, 0, 0⟩ 5500 1000 =
      .error (.code .LaunchLiquidityTooSmall) := by decide

/-! ### C10 — swapped error names in the newer `check_state` -/

/-- Claim C10 (counterexample): for a launched pool with BOTH reserves
zero, the claim as stated requires the error `QuoteLiquidityIsZero`
(base side is zero), but the quote-side check fires first and the newer
engine reports `BaseLiquidityIsZero`. -/
theorem check_state_error_both_reserves_zero :
    CpAmm.get_provide_payload ⟨true, true, 0, 0, 0, 0, 0, 5, 0, 0⟩ 1 1 =
      .error (.code .BaseLiquidityIsZero) ∧
    CpAmm.get_provide_payload ⟨true, true, 0, 0, 0, 0, 0, 5, 0, 0⟩ 1 1 ≠
      .error (.code .QuoteLiquidityIsZero) := by decide

/-! ### C3 — collectFees does not assert the lifecycle state -/

/-- Claim C3 (counterexample): a pool that is not even initialized, with a
non-zero base fee accumulator, successfully produces a collect-fees
payload: `get_collect_fees_payload` never inspects the lifecycle flags. -/
theorem collect_fees_ok_without_launch :
    CpAmm.get_collect_fees_payload ⟨false, false, 0, 0, 0, 0, 0, 0, 1, 0⟩ =
      .ok ⟨1, 0, 0, 0⟩ := by decide

/-! ### Shared state-check helper lemmas -/

theorem check_state_err_not_launched (s : CpAmm) (h : s.is_launched = false) :
    CpAmm.check_state s = .error (.code .CpAmmNotLaunched) := by
  simp [CpAmm.check_state, h]

theorem check_state_err_quote_zero (s : CpAmm) (h : s.is_launched = true)
    (hq : s.quote_liquidity = 0) :
    CpAmm.check_state s = .error (.code .BaseLiquidityIsZero) := by
  simp [CpAmm.check_state, h, hq]

theorem check_state_err_base_zero (s : CpAmm) (h : s.is_launched = true)
    (hq : s.quote_liquidity ≠ 0) (hb : s.base_liquidity = 0) :
    CpAmm.check_state s = .error (.code .QuoteLiquidityIsZero) := by
  simp [CpAmm.check_state, h, hq, hb]

theorem provide_err_of_check_state (s : CpAmm) (b q : Nat) (e : Failure)
    (h : CpAmm.check_state s = .error e) :
    CpAmm.get_provide_payload s b q = .error e := by
  simp [CpAmm.get_provide_payload, h]

theorem withdraw_err_of_check_state (s : CpAmm) (lp : Nat) (e : Failure)
    (h : CpAmm.check_state s = .error e) :
    CpAmm.get_withdraw_payload s lp = .error e := by
  simp [CpAmm.get_withdraw_payload, h]

theorem swap_err_of_check_state (s : CpAmm) (a est sl pb qb : Nat) (d : Bool)
    (e : Failure) (h : CpAmm.check_state s = .error e) :
    CpAmm.get_swap_payload s a est sl pb qb d = .error e := by
  simp [CpAmm.get_swap_payload, h]

/-! ### C10 — amended: the error names by reserve side, in both revisions -/

/-- Claim C10 (amended): in the newer engine a launched pool with zero
quote reserve makes provide/withdraw/swap fail with `BaseLiquidityIsZero`,
and one with zero base but non-zero quote reserve fail with
`QuoteLiquidityIsZero` (when both are zero the quote-side check fires
first); the older revision's `check_state` reports the matching side. -/
theorem check_state_swapped_error_names :
    (∀ (s : CpAmm) (b q lp amt est slip pbp qbp : Nat) (d : Bool),
      s.is_launched = true →
      (s.quote_liquidity = 0 →
        CpAmm.get_provide_payload s b q = .error (.code .BaseLiquidityIsZero) ∧
        CpAmm.get_withdraw_payload s lp = .error (.code .BaseLiquidityIsZero) ∧
        CpAmm.get_swap_payload s amt est slip pbp qbp d =
          .error (.code .BaseLiquidityIsZero)) ∧
      (s.base_liquidity = 0 → s.quote_liquidity ≠ 0 →
        CpAmm.get_provide_payload s b q = .error (.code .QuoteLiquidityIsZero) ∧
        CpAmm.get_withdraw_payload s lp = .error (.code .QuoteLiquidityIsZero) ∧
        CpAmm.get_swap_payload s amt est slip pbp qbp d =
          .error (.code .QuoteLiquidityIsZero))) ∧
    (∀ t : CpAmmOld, t.is_launched = true →
      (t.quote_liquidity = 0 →
        CpAmmOld.check_state t = .error (.code .QuoteLiquidityIsZero)) ∧
      (t.base_liquidity = 0 → t.quote_liquidity ≠ 0 →
        CpAmmOld.check_state t = .error (.code .BaseLiquidityIsZero))) := by
  constructor
  · intro s b q lp amt est slip pbp qbp d hl
    constructor
    · intro hq
      have h := check_state_err_quote_zero s hl hq
      exact ⟨provide_err_of_check_state _ _ _ _ h,
        withdraw_err_of_check_state _ _ _ h,
        swap_err_of_check_state _ _ _ _ _ _ _ _ h⟩
    · intro hb hq
      have h := check_state_err_base_zero s hl hq hb
      exact ⟨provide_err_of_check_state _ _ _ _ h,
        withdraw_err_of_check_state _ _ _ h,
        swap_err_of_check_state _ _ _ _ _ _ _ _ h⟩
  · intro t hl
    constructor
    · intro hq; simp [CpAmmOld.check_state, hl, hq]
    · intro hb hq; simp [CpAmmOld.check_state, hl, hq, hb]

/-- Claim C10 witness: concrete launched pools with a zero reserve, in
both revisions. -/
theorem check_state_swapped_error_names_witness :
    CpAmm.get_provide_payload ⟨true, true, 0, 0, 0, 7, 0, 5, 0, 0⟩ 1 1 =
      .error (.code .BaseLiquidityIsZero) ∧
    CpAmm.get_provide_payload ⟨true, true, 0, 0, 0, 0, 7, 5, 0, 0⟩ 1 1 =
      .error (.code .QuoteLiquidityIsZero) ∧
    CpAmmOld.check_state ⟨true, true, 0, 0, 0, 7, 0, 5, 0, 0, 0, 0⟩ =
      .error (.code .QuoteLiquidityIsZero) :=
  ⟨((check_state_swapped_error_names.1 ⟨true, true, 0, 0, 0, 7, 0, 5, 0, 0⟩
      1 1 0 0 0 0 0 0 true rfl).1 rfl).1,
   ((check_state_swapped_error_names.1 ⟨true, true, 0, 0, 0, 0, 7, 5, 0, 0⟩
      1 1 0 0 0 0 0 0 true rfl).2 rfl (by decide)).1,
   (check_state_swapped_error_names.2 ⟨true, true, 0, 0, 0, 7, 0, 5, 0, 0, 0, 0⟩
      rfl).1 rfl⟩

/-! ### C3 — amended lifecycle assertions -/

/-- Claim C3 (amended): for a not-launched pool, provide, withdraw and swap
fail with `CpAmmNotLaunched` before doing anything else; `collectFees`
however never asserts the lifecycle state — it fails with
`ProvidersFeesIsZero` exactly when both fee accumulators are zero (the
launched requirement of fee collection is enforced only by the instruction
layer's account constraint). -/
theorem lifecycle_checks_amended :
    (∀ (s : CpAmm) (b q lp amt est slip pbp qbp : Nat) (d : Bool),
      s.is_launched = false →
        CpAmm.get_provide_payload s b q = .error (.code .CpAmmNotLaunched) ∧
        CpAmm.get_withdraw_payload s lp = .error (.code .CpAmmNotLaunched) ∧
        CpAmm.get_swap_payload s amt est slip pbp qbp d =
          .error (.code .CpAmmNotLaunched)) ∧
    (∀ s : CpAmm,
      CpAmm.get_collect_fees_payload s = .error (.code .ProvidersFeesIsZero) ↔
        s.protocol_base_fees_to_redeem = 0 ∧
          s.protocol_quote_fees_to_redeem = 0) := by
  constructor
  · intro s b q lp amt est slip pbp qbp d hl
    have h := check_state_err_not_launched s hl
    exact ⟨provide_err_of_check_state _ _ _ _ h,
      withdraw_err_of_check_state _ _ _ h,
      swap_err_of_check_state _ _ _ _ _ _ _ _ h⟩
  · intro s
    by_cases hb : s.protocol_base_fees_to_redeem = 0 <;>
      by_cases hq : s.protocol_quote_fees_to_redeem = 0 <;>
        simp [CpAmm.get_collect_fees_payload, hb, hq]

/-- Claim C3 witness: a concrete not-launched pool. -/
theorem lifecycle_checks_amended_witness :
    CpAmm.get_provide_payload ⟨true, false, 0, 0, 0, 9, 9, 5, 0, 0⟩ 1 1 =
      .error (.code .CpAmmNotLaunched) ∧
    (CpAmm.get_collect_fees_payload ⟨true, false, 0, 0, 0, 9, 9, 5, 0, 0⟩ =
      .error (.code .ProvidersFeesIsZero) ↔ (0 : Nat) = 0 ∧ (0 : Nat) = 0) :=
  ⟨(lifecycle_checks_amended.1 ⟨true, false, 0, 0, 0, 9, 9, 5, 0, 0⟩
      1 1 0 0 0 0 0 0 true rfl).1,
   lifecycle_checks_amended.2 ⟨true, false, 0, 0, 0, 9, 9, 5, 0, 0⟩⟩

/-! ### C4 — withdraw cannot drain the LP supply (older revision) -/

/-- Claim C4: on a launched pool with non-zero reserves and supply, the
older revision's `get_withdraw_payload` rejects `lp_tokens = lp_supply`
with `LpTokensLeftSupplyIsZero`, and any successful withdrawal satisfies
`0 < lp_tokens < lp_supply`. -/
theorem withdraw_cannot_drain_supply :
    ∀ s : CpAmmOld, s.is_launched = true → 0 < s.base_liquidity →
      0 < s.quote_liquidity → 0 < s.lp_tokens_supply →
      CpAmmOld.get_withdraw_payload s s.lp_tokens_supply =
        .error (.code .LpTokensLeftSupplyIsZero) ∧
      ∀ (lp : Nat) (pl : WithdrawPayload),
        CpAmmOld.get_withdraw_payload s lp = .ok pl →
          0 < lp ∧ lp < s.lp_tokens_supply := by
  intro s hl hb hq hs
  have hcs : CpAmmOld.check_state s = .ok () := by
    simp only [CpAmmOld.check_state, hl]
    rw [if_neg (by simp), if_neg (by omega), if_neg (by omega), if_neg (by omega)]
  constructor
  · simp only [CpAmmOld.get_withdraw_payload, hcs]
    rw [if_neg (by omega), if_neg (by omega), if_pos (by omega)]
  · intro lp pl hok
    simp only [CpAmmOld.get_withdraw_payload, hcs] at hok
    constructor
    · by_contra h0
      rw [if_pos (by omega)] at hok
      exact absurd hok (by simp)
    · by_contra hge
      rw [if_neg (by omega)] at hok
      by_cases hle : lp ≤ s.lp_tokens_supply
      · rw [if_neg (by omega), if_pos (by omega)] at hok
        exact absurd hok (by simp)
      · rw [if_pos (by omega)] at hok
        exact absurd hok (by simp)

/-- Claim C4 witness: the launched pool of the repo's withdraw scenario;
redeeming the whole supply is rejected with `LpTokensLeftSupplyIsZero`. -/
theorem withdraw_cannot_drain_supply_witness :
    CpAmmOld.get_withdraw_payload
        ⟨true, true, 0, 2000000 * 2 ^ 64, 2 * 2 ^ 64, 4000000, 1000000,
          2000000, 0, 0, 0, 0⟩ 2000000 =
      .error (.code .LpTokensLeftSupplyIsZero) :=
  (withdraw_cannot_drain_supply
    ⟨true, true, 0, 2000000 * 2 ^ 64, 2 * 2 ^ 64, 4000000, 1000000,
      2000000, 0, 0, 0, 0⟩ rfl (by decide) (by decide) (by decide)).1

/-! ### C7 — provide mint amount -/

/-- Claim C7 (counterexample): a perfectly consistent launched pool with
reserves `(3, 3)`, supply `6`, `constant_product_sqrt = 3` and ratio `1`;
providing `(1, 1)` succeeds and mints `1` LP token, while the claimed
single-floor formula `⌊lpSupply · (newSqrtCP − oldSqrtCP) / oldSqrtCP⌋`
gives `⌊6 · 1 / 3⌋ = 2`: the code truncates the share to `Q64.128` before
multiplying by the supply. -/
theorem provide_mint_single_floor_counterexample :
    CpAmm.get_provide_payload
        ⟨true, true, 0, 3 * 2 ^ 128, 2 ^ 128, 3, 3, 6, 0, 0⟩ 1 1 =
      .ok ⟨2 ^ 128, 4 * 2 ^ 128, 4, 4, 7, 1⟩ ∧
    CpAmm.calculate_constant_product_sqrt 4 4 = some (4 * 2 ^ 128) ∧
    6 * (4 * 2 ^ 128 - 3 * 2 ^ 128) / (3 * 2 ^ 128) = 2 ∧ (1 : Nat) ≠ 2 := by
  decide

/-- Characterization of `Q64_128.checked_sub` success. -/
theorem checked_sub_some (x y z : Nat) :
    Q64_128.checked_sub x y = some z ↔ y ≤ x ∧ z = x - y := by
  unfold Q64_128.checked_sub
  split <;> simp_all [eq_comm]

/-- Characterization of `Q64_128.checked_div` success. -/
theorem checked_div_some (x y z : Nat) :
    Q64_128.checked_div x y = some z ↔
      y ≠ 0 ∧ x * 2 ^ 128 / y < 2 ^ 192 ∧ z = x * 2 ^ 128 / y := by
  unfold Q64_128.checked_div
  split
  · simp_all
  · split <;> simp_all [eq_comm]

/-- Characterization of `Q64_128.checked_mul` success. -/
theorem checked_mul_some (x y z : Nat) :
    Q64_128.checked_mul x y = some z ↔
      x * y / 2 ^ 128 < 2 ^ 192 ∧ z = x * y / 2 ^ 128 := by
  unfold Q64_128.checked_mul
  split <;> simp_all [eq_comm]

/-- The mint amount computed by `calculate_lp_mint_for_provided_liquidity`
is the supply times the `Q64.128`-truncated share, floored. -/
theorem lp_mint_some_eq (s : CpAmm) (ncp m : Nat)
    (h : CpAmm.calculate_lp_mint_for_provided_liquidity s ncp = some m) :
    m = s.lp_tokens_supply *
        ((ncp - s.constant_product_sqrt) * 2 ^ 128 / s.constant_product_sqrt) /
        2 ^ 128 ∧ 0 < m := by
  unfold CpAmm.calculate_lp_mint_for_provided_liquidity at h
  split at h
  · simp at h
  next provided hsub =>
    split at h
    · simp at h
    next share hdiv =>
      split at h
      · simp at h
      next t hmul =>
        by_cases hz : Q64_128.as_u64 t = 0
        · rw [if_pos hz] at h; simp at h
        · rw [if_neg hz] at h
          simp only [Option.some.injEq] at h
          obtain ⟨hs1, hs2⟩ := (checked_sub_some _ _ _).1 hsub
          obtain ⟨hd1, hd2, hd3⟩ := (checked_div_some _ _ _).1 hdiv
          obtain ⟨hm1, hm2⟩ := (checked_mul_some _ _ _).1 hmul
          unfold Q64_128.from_u64 at hm2
          have hexact : share * (s.lp_tokens_supply * 2 ^ 128) / 2 ^ 128 =
              share * s.lp_tokens_supply := by
            rw [show share * (s.lp_tokens_supply * 2 ^ 128) =
              share * s.lp_tokens_supply * 2 ^ 128 by ring]
            exact Nat.mul_div_cancel _ (by positivity)
          constructor
          · rw [← h]
            unfold Q64_128.as_u64
            rw [hm2, hexact, hd3, hs2,
              Nat.mul_comm ((ncp - s.constant_product_sqrt) * 2 ^ 128 /
                s.constant_product_sqrt) s.lp_tokens_supply]
          · omega

/-- Claim C7 (amended): for every successful provide, the minted amount is
`⌊lpSupply · σ / 2 ^ 128⌋` where `σ = ⌊(newSqrtCP − oldSqrtCP) · 2 ^ 128 /
oldSqrtCP⌋` is the provided share truncated to `Q64.128` precision (not the
single-floor `⌊lpSupply (newSqrtCP − oldSqrtCP) / oldSqrtCP⌋`), and the
minted amount is positive — a zero mint makes the call fail instead. -/
theorem provide_mint_double_floor :
    ∀ (s : CpAmm) (b q : Nat) (pl : ProvidePayload),
      CpAmm.get_provide_payload s b q = .ok pl →
      ∃ ncp, CpAmm.calculate_constant_product_sqrt (s.base_liquidity + b)
          (s.quote_liquidity + q) = some ncp ∧
        pl.lp_tokens_to_mint = s.lp_tokens_supply *
          ((ncp - s.constant_product_sqrt) * 2 ^ 128 / s.constant_product_sqrt) /
          2 ^ 128 ∧
        0 < pl.lp_tokens_to_mint := by
  intro s b q pl hok
  unfold CpAmm.get_provide_payload at hok
  split at hok
  case h_1 => simp at hok
  case h_2 =>
    split at hok
    case isTrue => simp at hok
    case isFalse =>
      split at hok
      case isTrue => simp at hok
      case isFalse =>
        split at hok
        case isTrue => simp at hok
        case isFalse =>
          split at hok
          case isTrue => simp at hok
          case isFalse =>
            split at hok
            case h_1 => simp at hok
            case h_2 =>
              split at hok
              case h_1 => simp at hok
              case h_2 ncp hncp =>
                split at hok
                case h_1 => simp at hok
                case h_2 m hm =>
                  split at hok
                  case isFalse => simp at hok
                  case isTrue =>
                    simp only [Except.ok.injEq] at hok
                    subst hok
                    obtain ⟨hm1, hm2⟩ := lp_mint_some_eq s ncp m hm
                    exact ⟨ncp, hncp, hm1, hm2⟩

/-- Claim C7 witness: the `(3, 3, supply 6)` pool above; the theorem yields
the mint amount `1` with the double-floor value. -/
theorem provide_mint_double_floor_witness :
    ∃ ncp, CpAmm.calculate_constant_product_sqrt (3 + 1) (3 + 1) = some ncp ∧
      (1 : Nat) = 6 * ((ncp - 3 * 2 ^ 128) * 2 ^ 128 / (3 * 2 ^ 128)) / 2 ^ 128 ∧
      (0 : Nat) < 1 :=
  provide_mint_double_floor ⟨true, true, 0, 3 * 2 ^ 128, 2 ^ 128, 3, 3, 6, 0, 0⟩
    1 1 ⟨2 ^ 128, 4 * 2 ^ 128, 4, 4, 7, 1⟩ (by decide)

/-! ### C1 — fee conservation for swap (newer engine) -/

/-- Sum of two basis-point fee floors never exceeds the gross amount when
the rates sum to at most 10000. -/
theorem fee_sum_le (amount p q : Nat) (h : p + q ≤ 10000) :
    amount * p / 10000 + amount * q / 10000 ≤ amount := by
  have h1 : amount * p / 10000 + amount * q / 10000 ≤
      (amount * p + amount * q) / 10000 := by
    rw [Nat.le_div_iff_mul_le (by norm_num)]
    have e1 := Nat.div_mul_le_self (amount * p) 10000
    have e2 := Nat.div_mul_le_self (amount * q) 10000
    omega
  have h2 : amount * p + amount * q = amount * (p + q) := by ring
  have h3 : amount * (p + q) / 10000 ≤ amount * 10000 / 10000 :=
    Nat.div_le_div_right (Nat.mul_le_mul_left _ h)
  have h4 : amount * 10000 / 10000 = amount := Nat.mul_div_cancel _ (by norm_num)
  omega

/-- In the base-to-quote direction, after-swap liquidity credits exactly
the given net amount to the base reserve. -/
theorem afterswap_some_base (s : CpAmm) (amt nb nq : Nat)
    (h : CpAmm.calculate_afterswap_liquidity s amt true = some (nb, nq)) :
    nb = s.base_liquidity + amt := by
  unfold CpAmm.calculate_afterswap_liquidity at h
  rw [if_pos rfl] at h
  split at h
  case isTrue =>
    split at h
    · simp at h
    · simp only [Option.some.injEq, Prod.mk.injEq] at h
      omega
  case isFalse => simp at h

/-- In the quote-to-base direction, after-swap liquidity credits exactly
the given net amount to the quote reserve. -/
theorem afterswap_some_quote (s : CpAmm) (amt nb nq : Nat)
    (h : CpAmm.calculate_afterswap_liquidity s amt false = some (nb, nq)) :
    nq = s.quote_liquidity + amt := by
  unfold CpAmm.calculate_afterswap_liquidity at h
  rw [if_neg (by simp)] at h
  split at h
  case isTrue =>
    split at h
    · simp at h
    · simp only [Option.some.injEq, Prod.mk.injEq] at h
      omega
  case isFalse => simp at h

/-- Success facts of `swap_core`: fees are subtractable from the gross
amount, the input-side reserve is credited with exactly the net amount,
and the matching protocol accumulator grows by the protocol fee. -/
theorem swap_core_ok (s : CpAmm) (amount f1 f2 : Nat) (d : Bool)
    (nb nq acc atw : Nat)
    (h : CpAmm.swap_core s amount f1 f2 d = .ok (nb, nq, acc, atw)) :
    f1 ≤ amount ∧ f2 ≤ amount - f1 ∧
    (d = true → nb = s.base_liquidity + (amount - f1 - f2) ∧
      acc = s.protocol_base_fees_to_redeem + f2) ∧
    (d = false → nq = s.quote_liquidity + (amount - f1 - f2) ∧
      acc = s.protocol_quote_fees_to_redeem + f2) := by
  unfold CpAmm.swap_core at h
  cases d
  · rw [if_neg (by simp)] at h
    split at h
    · simp at h
    · split at h
      · simp at h
      next h2 =>
        split at h
        · simp at h
        next h3 =>
          split at h
          · simp at h
          next nb' nq' hafter =>
            split at h
            · simp at h
            · simp only [Except.ok.injEq, Prod.mk.injEq] at h
              obtain ⟨e1, e2, e3, e4⟩ := h
              refine ⟨by omega, by omega, by simp, fun _ => ?_⟩
              have := afterswap_some_quote s (amount - f1 - f2) nb' nq' hafter
              omega
  · rw [if_pos rfl] at h
    split at h
    · simp at h
    · split at h
      · simp at h
      next h2 =>
        split at h
        · simp at h
        next h3 =>
          split at h
          · simp at h
          next nb' nq' hafter =>
            split at h
            · simp at h
            · simp only [Except.ok.injEq, Prod.mk.injEq] at h
              obtain ⟨e1, e2, e3, e4⟩ := h
              refine ⟨by omega, by omega, fun _ => ?_, by simp⟩
              have := afterswap_some_base s (amount - f1 - f2) nb' nq' hafter
              omega

/-- Claim C1: for every successful swap, the provider fee is
`⌊amount · providersBp / 10000⌋`, the protocol fee is
`⌊amount · protocolBp / 10000⌋` (both matching the in-repo `as u64`-cast
formula for `u64` inputs), the two fees fit inside the gross amount, the
gross amount splits exactly into net-in plus the two fees, and the payload
credits exactly the net amount to the input-side reserve while the
matching protocol accumulator grows by the protocol fee. -/
theorem swap_fee_conservation :
    ∀ (s : CpAmm) (amount est slip pbp qbp : Nat) (d : Bool) (pl : SwapPayload),
      amount < 2 ^ 64 →
      CpAmm.get_swap_payload s amount est slip pbp qbp d = .ok pl →
      CpAmm.calculate_fee_amount amount pbp = amount * pbp / 10000 ∧
      CpAmm.calculate_fee_amount amount pbp =
        CpAmm.protocol_fee_amount_formula amount pbp ∧
      CpAmm.calculate_fee_amount amount qbp =
        CpAmm.protocol_fee_amount_formula amount qbp ∧
      pl.providers_fees_to_redeem = CpAmm.calculate_fee_amount amount pbp ∧
      CpAmm.calculate_fee_amount amount pbp +
          CpAmm.calculate_fee_amount amount qbp ≤ amount ∧
      amount = (amount - CpAmm.calculate_fee_amount amount pbp -
            CpAmm.calculate_fee_amount amount qbp) +
          CpAmm.calculate_fee_amount amount pbp +
          CpAmm.calculate_fee_amount amount qbp ∧
      (d = true → pl.base_liquidity = s.base_liquidity +
          (amount - CpAmm.calculate_fee_amount amount pbp -
            CpAmm.calculate_fee_amount amount qbp) ∧
        pl.protocol_fees_to_redeem = s.protocol_base_fees_to_redeem +
          CpAmm.calculate_fee_amount amount qbp) ∧
      (d = false → pl.quote_liquidity = s.quote_liquidity +
          (amount - CpAmm.calculate_fee_amount amount pbp -
            CpAmm.calculate_fee_amount amount qbp) ∧
        pl.protocol_fees_to_redeem = s.protocol_quote_fees_to_redeem +
          CpAmm.calculate_fee_amount amount qbp) := by
  intro s amount est slip pbp qbp d pl hamt hok
  unfold CpAmm.get_swap_payload at hok
  split at hok
  · simp at hok
  · split at hok
    · simp at hok
    · split at hok
      · simp at hok
      · split at hok
        · simp at hok
        next hrates =>
          split at hok
          · simp at hok
          next nb nq acc atw hcore =>
            split at hok
            · simp at hok
            · split at hok
              · simp at hok
              · simp only [Except.ok.injEq] at hok
                subst hok
                rw [not_not] at hrates
                obtain ⟨hf1, hf2, hdt, hdf⟩ := swap_core_ok s amount
                  (CpAmm.calculate_fee_amount amount pbp)
                  (CpAmm.calculate_fee_amount amount qbp) d nb nq acc atw hcore
                have hfee : CpAmm.calculate_fee_amount amount pbp +
                    CpAmm.calculate_fee_amount amount qbp ≤ amount := by
                  have := fee_sum_le amount pbp qbp hrates
                  simpa [CpAmm.calculate_fee_amount, CpAmm.FEE_MAX_BASIS_POINTS]
                    using this
                have hpbp : pbp ≤ 10000 := by omega
                have hqbp : qbp ≤ 10000 := by omega
                have hlt1 : amount * pbp / 10000 < 2 ^ 64 := by
                  have h1 : amount * pbp / 10000 ≤ amount * 10000 / 10000 :=
                    Nat.div_le_div_right (Nat.mul_le_mul_left _ hpbp)
                  have h2 : amount * 10000 / 10000 = amount :=
                    Nat.mul_div_cancel _ (by norm_num)
                  omega
                have hlt2 : amount * qbp / 10000 < 2 ^ 64 := by
                  have h1 : amount * qbp / 10000 ≤ amount * 10000 / 10000 :=
                    Nat.div_le_div_right (Nat.mul_le_mul_left _ hqbp)
                  have h2 : amount * 10000 / 10000 = amount :=
                    Nat.mul_div_cancel _ (by norm_num)
                  omega
                refine ⟨rfl, ?_, ?_, rfl, hfee, by omega, ?_, ?_⟩
                · unfold CpAmm.calculate_fee_amount
                    CpAmm.protocol_fee_amount_formula CpAmm.FEE_MAX_BASIS_POINTS
                  omega
                · unfold CpAmm.calculate_fee_amount
                    CpAmm.protocol_fee_amount_formula CpAmm.FEE_MAX_BASIS_POINTS
                  omega
                · intro hd
                  obtain ⟨e1, e2⟩ := hdt hd
                  exact ⟨e1, e2⟩
                · intro hd
                  obtain ⟨e1, e2⟩ := hdf hd
                  exact ⟨e1, e2⟩

/-- Claim C1 witness: the repo's base-to-quote swap scenario — reserves
`(6000000, 1500000)`, supply `3000000`, gross input `3061224` at 1% + 1%;
both fees are `30612`, net-in is `3000000`, and the payload credits
`9000000` to the base reserve. -/
theorem swap_fee_conservation_witness :
    CpAmm.calculate_fee_amount 3061224 100 = 3061224 * 100 / 10000 ∧
    CpAmm.calculate_fee_amount 3061224 100 =
      CpAmm.protocol_fee_amount_formula 3061224 100 ∧
    CpAmm.calculate_fee_amount 3061224 100 =
      CpAmm.protocol_fee_amount_formula 3061224 100 ∧
    (SwapPayload.mk 9000000 1000000 30612 30612 500000 true).providers_fees_to_redeem =
      CpAmm.calculate_fee_amount 3061224 100 ∧
    CpAmm.calculate_fee_amount 3061224 100 +
        CpAmm.calculate_fee_amount 3061224 100 ≤ 3061224 ∧
    3061224 = (3061224 - CpAmm.calculate_fee_amount 3061224 100 -
          CpAmm.calculate_fee_amount 3061224 100) +
        CpAmm.calculate_fee_amount 3061224 100 +
        CpAmm.calculate_fee_amount 3061224 100 ∧
    (true = true → (SwapPayload.mk 9000000 1000000 30612 30612 500000
          true).base_liquidity = 6000000 +
        (3061224 - CpAmm.calculate_fee_amount 3061224 100 -
          CpAmm.calculate_fee_amount 3061224 100) ∧
      (SwapPayload.mk 9000000 1000000 30612 30612 500000
          true).protocol_fees_to_redeem = 0 +
        CpAmm.calculate_fee_amount 3061224 100) ∧
    (true = false → (SwapPayload.mk 9000000 1000000 30612 30612 500000
          true).quote_liquidity = 1500000 +
        (3061224 - CpAmm.calculate_fee_amount 3061224 100 -
          CpAmm.calculate_fee_amount 3061224 100) ∧
      (SwapPayload.mk 9000000 1000000 30612 30612 500000
          true).protocol_fees_to_redeem = 0 +
        CpAmm.calculate_fee_amount 3061224 100) :=
  swap_fee_conservation
    ⟨true, true, 0, 3000000 * 2 ^ 128, 2 * 2 ^ 128, 6000000, 1500000,
      3000000, 0, 0⟩
    3061224 500000 0 100 100 true
    ⟨9000000, 1000000, 30612, 30612, 500000, true⟩
    (by decide) (by decide)

/-! ### C8 — square-root / square round trip (`Q64_128`) -/

/-- The `u64` round trip is exact: scaling by `2 ^ 256`, taking the floor
square root, and converting the squared result back with the top-byte
rounding recovers every non-zero `u64` exactly. -/
theorem q64_128_u64_round_trip (v : Nat) (h0 : 0 < v) (h64 : v < 2 ^ 64) :
    Q64_128.square_as_u128 (Q64_128.sqrt_from_u128 v) = v := by
  by_cases hv1 : v = 1
  · subst hv1; decide
  · have hb : v * 2 ^ 256 < 4 ^ 400 := by
      have h1 : v * 2 ^ 256 < 2 ^ 64 * 2 ^ 256 :=
        (Nat.mul_lt_mul_right (by positivity)).mpr h64
      have h2 : (2 : Nat) ^ 64 * 2 ^ 256 < 4 ^ 400 := by norm_num
      omega
    obtain ⟨h1, h2⟩ := isqrt_spec (v * 2 ^ 256) hb
    set s := isqrt (v * 2 ^ 256) with hs
    have hv2 : 2 ≤ v := by omega
    have hsucc : (s + 1) * (s + 1) = s * s + 2 * s + 1 := by ring
    have hsgt : 2 ^ 128 < s := by
      by_contra hle
      push_neg at hle
      have hm : (s + 1) * (s + 1) ≤ (2 ^ 128 + 1) * (2 ^ 128 + 1) :=
        Nat.mul_le_mul (by omega) (by omega)
      have hlit : ((2 : Nat) ^ 128 + 1) * (2 ^ 128 + 1) = 2 ^ 256 + 2 ^ 129 + 1 := by
        norm_num
      have hv256 : 2 * 2 ^ 256 ≤ v * 2 ^ 256 := Nat.mul_le_mul_right _ hv2
      omega
    have hslt : s < 2 ^ 160 := by
      by_contra hge
      push_neg at hge
      have hm : 2 ^ 160 * 2 ^ 160 ≤ s * s := Nat.mul_le_mul hge hge
      have hv320 : v * 2 ^ 256 < 2 ^ 64 * 2 ^ 256 :=
        (Nat.mul_lt_mul_right (by positivity)).mpr h64
      have hlit : (2 : Nat) ^ 160 * 2 ^ 160 = 2 ^ 64 * 2 ^ 256 := by norm_num
      omega
    have h2s : 2 ≤ s := by omega
    have hss4 : 2 * 2 ≤ s * s := Nat.mul_le_mul h2s h2s
    unfold Q64_128.sqrt_from_u128
    rw [← hs]
    unfold Q64_128.square_as_u128 Q64_128.square_as_u384 Q64_128.ONE
    rw [if_neg (by omega : ¬ s = 0), if_neg (by omega : ¬ s = 2 ^ 128),
      if_neg (by omega : ¬ (s * s = 1 ∨ s = 0))]
    unfold Q64_128.q128_256_to_u128_round
    by_cases hr0 : s * s = v * 2 ^ 256
    · have hdiv : s * s / 2 ^ 256 = v := by
        rw [hr0]; exact Nat.mul_div_cancel _ (by positivity)
      have hmod : s * s % 2 ^ 256 = 0 := by
        rw [hr0]; exact Nat.mul_mod_left v (2 ^ 256)
      rw [hdiv, hmod]
      rw [if_neg (by omega), if_neg (by norm_num)]
    · have hrpos : s * s < v * 2 ^ 256 := lt_of_le_of_ne h1 hr0
      have hr_le : v * 2 ^ 256 ≤ s * s + 2 * s := by omega
      have hdiv : s * s / 2 ^ 256 = v - 1 := by omega
      have hmod : 2 ^ 256 - 2 * s ≤ s * s % 2 ^ 256 := by omega
      have htop : s * s % 2 ^ 256 / 2 ^ 248 > 128 := by omega
      rw [hdiv]
      rw [if_neg (by omega), if_pos htop]
      omega

/-- The fixed-point round trip `square ∘ sqrt` always succeeds and returns
within relative error `10 ^ (-9)` of the input (it is exact below `2 ^ 122`
and off by at most a few ulps above). -/
theorem q64_128_fixed_round_trip (x : Nat) (h0 : 0 < x) (h192 : x < 2 ^ 192) :
    ∃ y, Q64_128.square (Q64_128.sqrt x) = some y ∧
      10 ^ 9 * Q64_128.abs_diff y x ≤ x := by
  have hb : x * 2 ^ 128 < 4 ^ 400 := by
    have ha : x * 2 ^ 128 < 2 ^ 192 * 2 ^ 128 :=
      (Nat.mul_lt_mul_right (by positivity)).mpr h192
    have hc : (2 : Nat) ^ 192 * 2 ^ 128 < 4 ^ 400 := by norm_num
    omega
  obtain ⟨h1, h2⟩ := isqrt_spec (x * 2 ^ 128) hb
  set s := isqrt (x * 2 ^ 128) with hs
  have hsucc : (s + 1) * (s + 1) = s * s + 2 * s + 1 := by ring
  have hspos : 2 ^ 64 ≤ s := by
    by_contra hlt
    push_neg at hlt
    have hm : (s + 1) * (s + 1) ≤ 2 ^ 64 * 2 ^ 64 :=
      Nat.mul_le_mul (by omega) (by omega)
    have hlit : (2 : Nat) ^ 64 * 2 ^ 64 = 2 ^ 128 := by norm_num
    have hx1 : 1 * 2 ^ 128 ≤ x * 2 ^ 128 := Nat.mul_le_mul_right _ h0
    omega
  have hslt : s < 2 ^ 160 := by
    by_contra hge
    push_neg at hge
    have hm : 2 ^ 160 * 2 ^ 160 ≤ s * s := Nat.mul_le_mul hge hge
    have hx2 : x * 2 ^ 128 < 2 ^ 192 * 2 ^ 128 :=
      (Nat.mul_lt_mul_right (by positivity)).mpr h192
    have hlit : (2 : Nat) ^ 160 * 2 ^ 160 = 2 ^ 192 * 2 ^ 128 := by norm_num
    omega
  have hss128 : 2 ^ 128 ≤ s * s := by
    have hm : 2 ^ 64 * 2 ^ 64 ≤ s * s := Nat.mul_le_mul hspos hspos
    have hlit : (2 : Nat) ^ 64 * 2 ^ 64 = 2 ^ 128 := by norm_num
    omega
  unfold Q64_128.sqrt
  rw [← hs]
  unfold Q64_128.square Q64_128.ONE
  by_cases hone : s = 2 ^ 128
  · rw [if_pos (Or.inr hone)]
    refine ⟨s, rfl, ?_⟩
    rw [hone] at h1 h2
    have e1 : (2 : Nat) ^ 128 * 2 ^ 128 = 2 ^ 256 := by norm_num
    have e2 : ((2 : Nat) ^ 128 + 1) * (2 ^ 128 + 1) = 2 ^ 256 + 2 ^ 129 + 1 := by
      norm_num
    unfold Q64_128.abs_diff
    rw [hone]
    split <;> omega
  · rw [if_neg (by omega : ¬ (s = 0 ∨ s = 2 ^ 128))]
    unfold Q64_128.square_as_u384 Q64_128.ONE Q64_128.q128_256_to_q64_128_round Q64_128.MAXRAW
    rw [if_neg (by omega : ¬ s = 0), if_neg hone]
    have hlt320 : s * s < 2 ^ 320 := by
      have hm : s * s < 2 ^ 160 * 2 ^ 160 := Nat.mul_lt_mul'' hslt hslt
      have hlit : (2 : Nat) ^ 160 * 2 ^ 160 = 2 ^ 320 := by norm_num
      omega
    rw [if_pos hlt320]
    set k := s * s / 2 ^ 128 with hk
    by_cases hr0 : s * s = x * 2 ^ 128
    · have hkx : k = x := by rw [hk, hr0]; exact Nat.mul_div_cancel _ (by positivity)
      have hmod : s * s % 2 ^ 128 = 0 := by rw [hr0]; exact Nat.mul_mod_left _ _
      by_cases hmax : k = 2 ^ 192 - 1 ∨ k = 0
      · rw [if_pos hmax]
        refine ⟨k, rfl, ?_⟩
        unfold Q64_128.abs_diff
        split <;> omega
      · rw [if_neg hmax, hmod]
        rw [if_neg (by norm_num : ¬ (0 : Nat) / 2 ^ 120 > 128)]
        refine ⟨k, rfl, ?_⟩
        unfold Q64_128.abs_diff
        split <;> omega
    · have hrpos : s * s < x * 2 ^ 128 := lt_of_le_of_ne h1 hr0
      have hr_le : x * 2 ^ 128 ≤ s * s + 2 * s := by omega
      by_cases hxsmall : x < 2 ^ 122
      · have hs125 : s ≤ 2 ^ 125 := by
          by_contra hgt
          push_neg at hgt
          have hm : 2 ^ 125 * 2 ^ 125 < s * s := Nat.mul_lt_mul'' hgt hgt
          have hxb : x * 2 ^ 128 ≤ 2 ^ 122 * 2 ^ 128 :=
            Nat.mul_le_mul_right _ (by omega)
          have hlit : (2 : Nat) ^ 125 * 2 ^ 125 = 2 ^ 122 * 2 ^ 128 := by norm_num
          omega
        have hkeq : k = x - 1 := by omega
        have htop : s * s % 2 ^ 128 / 2 ^ 120 > 128 := by omega
        have hknot : ¬ (k = 2 ^ 192 - 1 ∨ k = 0) := by omega
        rw [if_neg hknot, if_pos htop]
        refine ⟨k + 1, rfl, ?_⟩
        unfold Q64_128.abs_diff
        split <;> omega
      · have h2s : 2 * s ≤ x * 2 ^ 67 := by
          have e3 : x ≤ x * x := Nat.le_mul_of_pos_left x h0
          have e4 : x * 2 ^ 130 ≤ x * x * 2 ^ 130 := Nat.mul_le_mul_right _ e3
          have hsq : 2 * s * (2 * s) ≤ x * 2 ^ 67 * (x * 2 ^ 67) := by
            have e1 : 2 * s * (2 * s) = 4 * (s * s) := by ring
            have e2 : x * 2 ^ 67 * (x * 2 ^ 67) = x * x * 2 ^ 134 := by ring
            omega
          by_contra hlt
          push_neg at hlt
          have := Nat.mul_lt_mul'' hlt hlt
          omega
        by_cases hknot : k = 2 ^ 192 - 1 ∨ k = 0
        · rw [if_pos hknot]
          refine ⟨k, rfl, ?_⟩
          unfold Q64_128.abs_diff
          split <;> omega
        · rw [if_neg hknot]
          by_cases htop : s * s % 2 ^ 128 / 2 ^ 120 > 128
          · rw [if_pos htop]
            refine ⟨k + 1, rfl, ?_⟩
            unfold Q64_128.abs_diff
            split <;> omega
          · rw [if_neg htop]
            refine ⟨k, rfl, ?_⟩
            unfold Q64_128.abs_diff
            split <;> omega

/-- Claim C8: for every non-zero `u64` value, squaring the fixed-point
square root recovers the value exactly (well within any small tolerance);
and for every non-zero `Q64_128` fixed-point value, `sqrt` followed by
`square` returns a value within relative error `10 ^ (-9)`. -/
theorem sqrt_square_round_trip :
    (∀ v : Nat, 0 < v → v < 2 ^ 64 →
      Q64_128.square_as_u128 (Q64_128.sqrt_from_u128 v) = v) ∧
    (∀ x : Nat, 0 < x → x < 2 ^ 192 →
      ∃ y, Q64_128.square (Q64_128.sqrt x) = some y ∧
        10 ^ 9 * Q64_128.abs_diff y x ≤ x) :=
  ⟨q64_128_u64_round_trip, q64_128_fixed_round_trip⟩

/-- Claim C8 witness: the round trip at the `u64` value `123456789` and at
the fixed-point value `5` (raw `5 · 2 ^ 128`). -/
theorem sqrt_square_round_trip_witness :
    Q64_128.square_as_u128 (Q64_128.sqrt_from_u128 123456789) = 123456789 ∧
    ∃ y, Q64_128.square (Q64_128.sqrt (5 * 2 ^ 128)) = some y ∧
      10 ^ 9 * Q64_128.abs_diff y (5 * 2 ^ 128) ≤ 5 * 2 ^ 128 :=
  ⟨sqrt_square_round_trip.1 123456789 (by decide) (by decide),
   sqrt_square_round_trip.2 (5 * 2 ^ 128) (by decide) (by decide)⟩
